import Mathlib

/-!
Verification of the download engine of `src/tools/download_manager.py`
(`SmartDownloadManager`, `AdvancedProgressTracker`).

The Python code is shallowly embedded: task records become a Lean structure,
byte strings become `List Nat`, the file system and the HTTP response are
passed explicitly, and the `except` handlers become ordinary branches of
total functions.  Machine integers do not overflow in the relevant ranges,
so counters are plain `Nat`.
-/

namespace DownloadManager

/-- Status values of a `DownloadTask`; the Python code stores them as the
strings "pending", "downloading", "completed", "failed", "paused" and never
assigns any other value. -/
inductive Status where
  | pending
  | downloading
  | completed
  | failed
  | paused
deriving DecidableEq, Repr

/-- Embedding of the `DownloadTask` dataclass (download_manager.py lines
19-31), with the same field names and the same defaults
(`file_size = 0`, `downloaded = 0`, `status = "pending"`,
`retry_count = 0`, `max_retries = 3`). -/
structure DownloadTask where
  url : String
  filename : String
  headers : List (String × String)
  episode_number : Nat
  episode_title : String
  file_size : Nat := 0
  downloaded : Nat := 0
  status : Status := Status.pending
  retry_count : Nat := 0
  max_retries : Nat := 3
deriving DecidableEq, Repr

/-- Embedding of `SmartDownloadManager.add_download` (lines 47-58): builds a
fresh task, all progress fields at their dataclass defaults. -/
def add_download (url filename : String) (headers : List (String × String))
    (episode_number : Nat) (episode_title : String) : DownloadTask :=
  { url := url, filename := filename, headers := headers,
    episode_number := episode_number, episode_title := episode_title }

/-- Embedding of the `except Exception` branch of
`SmartDownloadManager.download_with_progress` (lines 152-159): the status is
set to "failed", the retry counter incremented, and, when the incremented
counter is still below `max_retries`, the status is reset to "pending" so
that `download_all` requeues the task. -/
def handle_failure (t : DownloadTask) : DownloadTask :=
  let t1 : DownloadTask :=
    { t with status := Status.failed, retry_count := t.retry_count + 1 }
  if t1.retry_count < t1.max_retries then { t1 with status := Status.pending }
  else t1

/-- Classification tags for the exceptions that can reach the handler
(connection and timeout errors from aiohttp, the raised `HTTP {status}`
exception, OS errors from URL parsing or file creation).  The Python handler
`except Exception as e` binds `e` only to format the printed message. -/
inductive ErrorClass where
  | connection
  | timeout
  | tls
  | httpStatus (code : Nat)
  | malformedURL
  | unsupportedProtocol
  | storage
deriving DecidableEq, Repr

/-- Embedding of the exception handler as reached by an exception of a given
class: the class is ignored, every exception takes the same branch
(lines 152-159). -/
def handle_exception (_e : ErrorClass) (t : DownloadTask) : DownloadTask :=
  handle_failure t

/-! ## Resume store (`save_resume_data`, `load_resume_data`, lines 60-101) -/

/-- Embedding of the body of the `for task_data in ...` loop of
`load_resume_data` (lines 82-92): a recorded task is restored only when
`os.path.exists(filename)` holds and `os.path.getsize(filename) > 0`; the
restored task gets `downloaded` set to the on-disk size and status "paused".
The file system is passed as a map from names to `some size` (existing file)
or `none` (missing file). -/
def restore_task (fs : String → Option Nat) (t : DownloadTask) :
    Option DownloadTask :=
  match fs t.filename with
  | some sz =>
      if 0 < sz then some { t with downloaded := sz, status := Status.paused }
      else none
  | none => none

/-- Embedding of `load_resume_data` (lines 72-101).  The first argument is
the outcome of reading the manifest: `none` when `os.path.exists` fails
(early `return False`), `some none` when the file is present but
`json.load` raises (caught by the `except`, which prints and falls through
to `return False`), and `some (some ts)` when it parses to a list of task
records.  The result is the list of tasks appended to
`self.download_tasks` together with the returned boolean
(`resumed_count > 0`). -/
def load_resume_data (manifest : Option (Option (List DownloadTask)))
    (fs : String → Option Nat) : List DownloadTask × Bool :=
  match manifest with
  | none => ([], false)
  | some none => ([], false)
  | some (some ts) =>
      let restored := ts.filterMap (restore_task fs)
      (restored, decide (0 < restored.length))

/-- Embedding of the file-level effect of `save_resume_data` (lines 60-70):
`open(self.resume_data_file, 'w')` truncates the file at once, then
`json.dump` streams the serialized manifest into it; any exception is caught
and only printed.  `old` is the previous file content (`none`: absent),
`content` the full serialization of the new manifest, and `failPoint`
describes the run: `none` — no failure; `some none` — the `open` itself
fails (file untouched); `some (some k)` — a failure after `k` characters
were written into the already-truncated file. -/
def save_resume_data_run (old : Option String) (content : String)
    (failPoint : Option (Option Nat)) : Option String :=
  match failPoint with
  | none => some content
  | some none => old
  | some (some k) => some (content.take k)

/-! ## Download summary (`get_download_summary`, lines 209-223) -/

/-- The summary dictionary built by `get_download_summary`: its keys are
"total", "completed", "failed", "pending", "downloading". -/
structure DownloadSummary where
  total : Nat
  completed : Nat
  failed : Nat
  pending : Nat
  downloading : Nat
deriving DecidableEq, Repr

/-- One iteration of the `for task in self.download_tasks` loop of
`get_download_summary`: `if task.status in summary` increments the matching
bucket; "paused" is not a key of the dictionary, so a paused task increments
nothing. -/
def summaryBump (s : DownloadSummary) : Status → DownloadSummary
  | Status.completed => { s with completed := s.completed + 1 }
  | Status.failed => { s with failed := s.failed + 1 }
  | Status.pending => { s with pending := s.pending + 1 }
  | Status.downloading => { s with downloading := s.downloading + 1 }
  | Status.paused => s

/-- Embedding of `get_download_summary` (lines 209-223): starts from
`total = len(self.download_tasks)` and zero buckets, then folds the loop
body over the task list. -/
def get_download_summary (tasks : List DownloadTask) : DownloadSummary :=
  tasks.foldl (fun s t => summaryBump s t.status)
    { total := tasks.length, completed := 0, failed := 0, pending := 0,
      downloading := 0 }

/-! ## Transport (`download_with_progress`, lines 103-159) -/

/-- The HTTP response handed to one invocation of `download_with_progress`:
its status code, the `Content-Length` header when present, and the body as
the chunk sequence delivered by `response.content.iter_chunked`.  Bytes are
modelled as `Nat`. -/
structure HttpResponse where
  status : Nat
  content_length : Option Nat
  chunks : List (List Nat)
deriving DecidableEq, Repr

/-- Result of one transport invocation: the task after the call, the
destination file content afterwards (`none` when the file still does not
exist), and the task snapshots passed to the progress callbacks, one per
written chunk. -/
structure TransportResult where
  task : DownloadTask
  file : Option (List Nat)
  events : List DownloadTask
deriving DecidableEq, Repr

/-- The `async for chunk in response.content.iter_chunked(...)` loop
(lines 137-143): each chunk is appended to the file, `task.downloaded`
advances by the chunk length, and the progress callbacks observe the task
in that state. -/
def writeChunks (t : DownloadTask) (file : List Nat)
    (evs : List DownloadTask) :
    List (List Nat) → DownloadTask × List Nat × List DownloadTask
  | [] => (t, file, evs)
  | c :: cs =>
      let t1 : DownloadTask := { t with downloaded := t.downloaded + c.length }
      writeChunks t1 (file ++ c) (evs ++ [t1]) cs

/-- Embedding of `download_with_progress` (lines 103-159) for one attempt.
`file0` is the destination content before the call (`none`: no file).  When
`task.downloaded > 0` and the file exists, the code sets a `Range` header
and keeps append mode `'ab'`; otherwise it resets `downloaded` to 0 and uses
truncating mode `'wb'`.  A status outside {200, 206} raises, reaching the
`except` branch (`handle_failure`) with the file untouched.  Otherwise,
when `file_size` is still 0 and a `Content-Length` is present, `file_size`
becomes that length plus the current offset for a 206 response, or the bare
length for a 200 response; the body is then written chunk by chunk and the
status ends at "completed".  Network and disk errors inside the write loop
are not modelled; the `Range` header itself and `os.makedirs` are elided as
they do not affect the task or file content. -/
def download_with_progress (task : DownloadTask) (file0 : Option (List Nat))
    (resp : HttpResponse) : TransportResult :=
  let start : DownloadTask × Bool :=
    if task.downloaded > 0 ∧ file0.isSome then (task, true)
    else ({ task with downloaded := 0 }, false)
  let t1 := start.1
  let appendMode := start.2
  let t2 : DownloadTask := { t1 with status := Status.downloading }
  if resp.status ≠ 200 ∧ resp.status ≠ 206 then
    { task := handle_failure t2, file := file0, events := [] }
  else
    let t3 : DownloadTask :=
      if t2.file_size = 0 then
        match resp.content_length with
        | some cl =>
            { t2 with
              file_size := if resp.status = 206 then cl + t2.downloaded else cl }
        | none => t2
      else t2
    let base : List Nat := if appendMode then file0.getD [] else []
    let w := writeChunks t3 base [] resp.chunks
    { task := { w.1 with status := Status.completed },
      file := some w.2.1, events := w.2.2 }

/-! ## Scheduler rounds (`download_all`, lines 161-207)

`download_all` first gathers every task whose status is "pending" or
"paused" and runs them all; afterwards it repeatedly gathers the tasks with
status "pending" and `retry_count < max_retries` and reruns those, until
none are left.  The outcome of one attempt is abstracted by an oracle
`o : DownloadTask → Bool`: `true` — the transport finished the body and set
the status to "completed"; `false` — it raised and the `except` branch
(`handle_failure`) ran.  Cancellation aborts the whole loop and is treated
in the semaphore model below. -/

/-- Eligibility filter of the first round (line 182):
`task.status in ["pending", "paused"]`. -/
def eligibleFirst (t : DownloadTask) : Bool :=
  t.status == Status.pending || t.status == Status.paused

/-- Eligibility filter of the retry rounds (lines 202-203):
`task.status == "pending" and task.retry_count < task.max_retries`. -/
def eligibleRetry (t : DownloadTask) : Bool :=
  t.status == Status.pending && decide (t.retry_count < t.max_retries)

/-- Effect of one transport attempt on the status and retry fields of a
task: success completes it, failure runs the exception handler.  (The byte
counters evolve as in `download_with_progress`; this scheduler-level model
only tracks the fields the round loop consults.) -/
def attemptOutcome (success : Bool) (t : DownloadTask) : DownloadTask :=
  if success then { t with status := Status.completed } else handle_failure t

/-- One round of `download_all`: every task passing the round's eligibility
filter is attempted, the others are left untouched. -/
def runRound (o : DownloadTask → Bool) (elig : DownloadTask → Bool)
    (tasks : List DownloadTask) : List DownloadTask :=
  tasks.map (fun t => if elig t then attemptOutcome (o t) t else t)

/-- The task list after `k` rounds of `download_all`: round 1 uses the
pending-or-paused filter, every later round the pending-with-budget filter.
Once no task is eligible a round changes nothing, so the sequence stabilizes
at the loop's exit state. -/
def downloadState (o : DownloadTask → Bool) (tasks : List DownloadTask) :
    Nat → List DownloadTask
  | 0 => tasks
  | 1 => runRound o eligibleFirst tasks
  | (k + 2) => runRound o eligibleRetry (downloadState o tasks (k + 1))

/-- Derived characterization (used to reason about `downloadState`): the
status and retry counter of a task after `k` failed attempts, starting from
a retry counter strictly below the budget — requeued as "pending" while the
counter is below `max_retries`, terminally "failed" at exactly
`max_retries`. -/
def afterFails (t : DownloadTask) (k : Nat) : DownloadTask :=
  if t.retry_count + k < t.max_retries then
    { t with status := Status.pending, retry_count := t.retry_count + k }
  else
    { t with status := Status.failed, retry_count := t.max_retries }

/-! ## Semaphore model of concurrent execution (lines 174-186)

`download_all` wraps every attempt in `async with semaphore` where
`semaphore = asyncio.Semaphore(self.max_concurrent)`.  A worker acquires
the semaphore, sets its task's status to "downloading", and the status has
already left "downloading" (to "completed", "failed"/"pending" or "paused")
when the semaphore is released.  The interleaving is modelled as a labelled
transition system over the status list and the semaphore counter; a `start`
step fuses the acquisition with the status write, a `finish` step fuses the
final status write with the release, which preserves the downloading count
of every interleaving of the real program. -/

/-- Scheduler state: the statuses of `self.download_tasks` and the current
value of the semaphore counter. -/
structure SchedulerState where
  statuses : List Status
  semAvail : Nat
deriving DecidableEq, Repr

/-- A task can be handed to a worker when its status is "pending" or
"paused" (line 182; retried tasks re-enter as "pending", lines 202-203). -/
def startable (st : Status) : Bool :=
  st == Status.pending || st == Status.paused

/-- Number of tasks currently in status "downloading". -/
def countDownloading (l : List Status) : Nat :=
  l.countP (fun st => st == Status.downloading)

/-- Steps of the scheduler: `start` acquires the semaphore (enabled only
when the counter is positive) and marks the task "downloading";
`finish` records the attempt's outcome — any status other than
"downloading" — and releases the semaphore. -/
inductive SchedStep : SchedulerState → SchedulerState → Prop where
  | start (s : SchedulerState) (i : Nat) (h : i < s.statuses.length)
      (helig : startable (s.statuses.get ⟨i, h⟩) = true)
      (hsem : 0 < s.semAvail) :
      SchedStep s ⟨s.statuses.set i Status.downloading, s.semAvail - 1⟩
  | finish (s : SchedulerState) (i : Nat) (h : i < s.statuses.length)
      (hrun : s.statuses.get ⟨i, h⟩ = Status.downloading)
      (out : Status) (hout : out ≠ Status.downloading) :
      SchedStep s ⟨s.statuses.set i out, s.semAvail + 1⟩

/-- States reachable by the scheduler from an initial status list with a
fresh semaphore of capacity `C` (`asyncio.Semaphore(self.max_concurrent)`,
line 175). -/
def SchedReachable (C : Nat) (init : List Status) (s : SchedulerState) :
    Prop :=
  Relation.ReflTransGen SchedStep ⟨init, C⟩ s

/-! ## Progress tracker (`AdvancedProgressTracker`, lines 233-284) -/

/-- Sum `sum(task.file_size for task in self.tasks.values())`
(line 259). -/
def totalSize (tasks : List DownloadTask) : Nat :=
  (tasks.map (fun t => t.file_size)).sum

/-- Sum `sum(task.downloaded for task in self.tasks.values())`
(line 260). -/
def totalDownloaded (tasks : List DownloadTask) : Nat :=
  (tasks.map (fun t => t.downloaded)).sum

/-- The overall percentage computed by `_display_progress` (lines 258-265):
`(total_downloaded / total_size) * 100` when `total_size > 0`, else `0`.
The Python float arithmetic is idealized as exact rational arithmetic. -/
def overall_progress (tasks : List DownloadTask) : ℚ :=
  if 0 < totalSize tasks then
    ((totalDownloaded tasks : ℚ) / (totalSize tasks : ℚ)) * 100
  else 0

/-- The tracker's `self.tasks` dictionary as an association list from
`task.filename` to the latest task snapshot.  `update_task_progress`
(line 243) does `self.tasks[task.filename] = task`: replace when the key is
present, append otherwise. -/
def update_task_progress (m : List (String × DownloadTask))
    (t : DownloadTask) : List (String × DownloadTask) :=
  if (m.lookup t.filename).isSome then
    m.map (fun p => if p.1 = t.filename then (p.1, t) else p)
  else m ++ [(t.filename, t)]

/-- The snapshot list `self.tasks.values()` over which `_display_progress`
aggregates. -/
def trackerTasks (m : List (String × DownloadTask)) : List DownloadTask :=
  m.map (fun p => p.2)

/-! ## Concrete inputs used by the evaluation, counterexample and witness
theorems below -/

/-- A partially downloaded task (3 bytes on disk) about to be resumed. -/
def c1task : DownloadTask :=
  { url := "http://host/v.mp4", filename := "d/f.mp4", headers := [],
    episode_number := 1, episode_title := "ep1", file_size := 0,
    downloaded := 3, status := Status.paused, retry_count := 0,
    max_retries := 3 }

/-- A server that ignores the `Range` header: full-content answer, status
200, `Content-Length` 5, the whole 5-byte body in one chunk. -/
def c1resp : HttpResponse :=
  { status := 200, content_length := some 5, chunks := [[1, 2, 3, 4, 5]] }

/-- A partially downloaded task (3 bytes on disk), as `c1task` but a
distinct record, used for the size-invariant scenario. -/
def c7task : DownloadTask :=
  { url := "http://host/w.mp4", filename := "d/g.mp4", headers := [],
    episode_number := 2, episode_title := "ep2", file_size := 0,
    downloaded := 3, status := Status.paused, retry_count := 0,
    max_retries := 3 }

/-- A status-200 answer to a ranged request, body delivered in two chunks
of 3 and 2 bytes. -/
def c7resp : HttpResponse :=
  { status := 200, content_length := some 5, chunks := [[1, 2, 3], [4, 5]] }

/-- Recorded resume-manifest task: 5 bytes transferred into file "a". -/
def c2tA : DownloadTask :=
  { url := "http://host/a.mp4", filename := "a", headers := [],
    episode_number := 1, episode_title := "A", downloaded := 5,
    status := Status.paused }

/-- Recorded resume-manifest task: 7 bytes transferred into file "b". -/
def c2tB : DownloadTask :=
  { url := "http://host/b.mp4", filename := "b", headers := [],
    episode_number := 2, episode_title := "B", downloaded := 7,
    status := Status.paused }

/-- Disk state at restore time: file "a" holds 10 bytes, file "b" is
gone. -/
def c2fs : String → Option Nat := fun n => if n = "a" then some 10 else none

/-- A task whose attempt just raised a malformed-URL error. -/
def c5task : DownloadTask :=
  { url := "not a url", filename := "f5", headers := [],
    episode_number := 5, episode_title := "ep5",
    status := Status.downloading, retry_count := 0, max_retries := 3 }

/-- A fresh task with a retry budget of 2, as submitted by
`add_download`. -/
def c4task : DownloadTask :=
  { add_download "http://host/c.mp4" "c.mp4" [] 1 "C" with max_retries := 2 }

/-- Transport oracle under which every attempt fails. -/
def c4oracle : DownloadTask → Bool := fun _ => false

/-- Tracker snapshot: 10 of 10 bytes transferred, status still
"downloading" (the last chunk's callback runs before the status is set to
"completed"). -/
def c8A : DownloadTask :=
  { url := "http://host/a8.mp4", filename := "a8", headers := [],
    episode_number := 1, episode_title := "A8", file_size := 10,
    downloaded := 10, status := Status.downloading }

/-- Tracker snapshot of a second task that has just received its first
byte. -/
def c8B : DownloadTask :=
  { url := "http://host/b8.mp4", filename := "b8", headers := [],
    episode_number := 2, episode_title := "B8", file_size := 10,
    downloaded := 1, status := Status.downloading }

/-- Tracker dictionary holding only the first task. -/
def c8m1 : List (String × DownloadTask) := [("a8", c8A)]

/-! ## Theorems -/

/-- C1: the claim says a resumed GET answered with 200 restarts from offset
0 and truncates the partial file.  Evaluating the transport at the failing
input shows the code instead keeps append mode: the destination ends as the
old partial bytes followed by the whole body, `downloaded` ends at 8 ≠ 5,
and the body alone is not the final content. -/
theorem c1_resumed_200_appends_not_truncates :
    (download_with_progress c1task (some [10, 11, 12]) c1resp).file
        = some ([10, 11, 12] ++ [1, 2, 3, 4, 5]) ∧
    (download_with_progress c1task (some [10, 11, 12]) c1resp).file
        ≠ some [1, 2, 3, 4, 5] ∧
    (download_with_progress c1task (some [10, 11, 12]) c1resp).task.downloaded
        = 8 := by
  decide

/-- C7: the claim says `downloaded ≤ file_size` holds from the moment
`file_size` becomes known.  Evaluating the transport on a resumed task
answered with 200 (`Content-Length` 5, 3 bytes already counted): after the
response, `file_size` is known to be 5, yet the progress events show
`downloaded` reaching 6 and then 8, both above 5. -/
theorem c7_downloaded_exceeds_known_size :
    ((download_with_progress c7task (some [20, 21, 22]) c7resp).events.map
        (fun t => (t.downloaded, t.file_size))) = [(6, 5), (8, 5)] ∧
    (download_with_progress c7task (some [20, 21, 22]) c7resp).task.file_size
        = 5 ∧
    (download_with_progress c7task (some [20, 21, 22]) c7resp).task.file_size
        < (download_with_progress c7task (some [20, 21, 22])
            c7resp).task.downloaded := by
  decide

/-- C2 counterexample: a manifest records task "a" with 5 bytes transferred
(10 on disk) and task "b" with 7 bytes transferred (file missing).  The
restored list carries `downloaded = 10`, not `min 5 10 = 5` — the restored
value exceeds the recorded one — and task "b" has been silently dropped
(1 restored task instead of 2). -/
theorem c2_restore_not_min_and_drops :
    ((load_resume_data (some (some [c2tA, c2tB])) c2fs).1.map
        (fun t => t.downloaded)) = [10] ∧
    min 5 10 = 5 ∧ (10 : Nat) ≠ 5 ∧
    (load_resume_data (some (some [c2tA, c2tB])) c2fs).1.length ≠ 2 := by
  decide

/-- C2 amended: `load_resume_data` restores exactly the recorded tasks
whose destination file exists with positive size; each restored task has
status "paused" and `downloaded` set to the actual on-disk size (which may
exceed the recorded value); recorded tasks whose destination is missing or
empty are dropped. -/
theorem c2_restore_characterization (ts : List DownloadTask)
    (fs : String → Option Nat) :
    (∀ t, t ∈ (load_resume_data (some (some ts)) fs).1 →
      t.status = Status.paused ∧ 0 < t.downloaded ∧
      fs t.filename = some t.downloaded ∧
      ∃ t0, t0 ∈ ts ∧
        t = { t0 with downloaded := t.downloaded,
                      status := Status.paused }) ∧
    (∀ t0, t0 ∈ ts → ∀ sz, fs t0.filename = some sz → 0 < sz →
      { t0 with downloaded := sz, status := Status.paused } ∈
        (load_resume_data (some (some ts)) fs).1) := by
  constructor
  · intro t ht
    simp only [load_resume_data, List.mem_filterMap] at ht
    obtain ⟨t0, ht0, hres⟩ := ht
    cases hfs : fs t0.filename with
    | none => simp [restore_task, hfs] at hres
    | some sz =>
        simp only [restore_task, hfs] at hres
        by_cases hsz : 0 < sz
        · rw [if_pos hsz, Option.some.injEq] at hres
          subst hres
          exact ⟨rfl, hsz, hfs, t0, ht0, rfl⟩
        · rw [if_neg hsz] at hres; exact absurd hres (by simp)
  · intro t0 ht0 sz hfs hsz
    simp only [load_resume_data, List.mem_filterMap]
    refine ⟨t0, ht0, ?_⟩
    simp only [restore_task, hfs]
    rw [if_pos hsz]

/-- C2 witness: applying the amended characterization at the concrete
manifest and disk state — task "a" (10 bytes on disk) is restored with
status "paused" and `downloaded = 10`. -/
theorem c2_restore_characterization_witness :
    { c2tA with downloaded := 10, status := Status.paused } ∈
      (load_resume_data (some (some [c2tA, c2tB])) c2fs).1 :=
  (c2_restore_characterization [c2tA, c2tB] c2fs).2 c2tA
    (List.mem_cons_self c2tA [c2tB]) 10 rfl (by decide)

/-- C5 counterexample: the claim says malformed-URL and storage failures
are terminal and never requeued.  The handler at a task with remaining
budget requeues it as "pending" for both classes. -/
theorem c5_terminal_class_still_retried :
    (handle_exception ErrorClass.malformedURL c5task).status
        = Status.pending ∧
    (handle_exception ErrorClass.storage c5task).status = Status.pending ∧
    Status.pending ≠ Status.failed := by
  decide

/-- C5 amended: no classification is performed — the handler treats every
error class identically: it increments `retry_count` and requeues the task
as "pending" exactly when the incremented count is below `max_retries`,
otherwise leaves it "failed". -/
theorem c5_no_classification (e1 e2 : ErrorClass) (t : DownloadTask) :
    handle_exception e1 t = handle_exception e2 t ∧
    (handle_exception e1 t).retry_count = t.retry_count + 1 ∧
    ((handle_exception e1 t).status = Status.pending ↔
      t.retry_count + 1 < t.max_retries) := by
  refine ⟨rfl, ?_, ?_⟩
  · unfold handle_exception handle_failure
    dsimp only
    split <;> rfl
  · unfold handle_exception handle_failure
    dsimp only
    split
    · simp_all
    · simp_all

/-- C6 counterexample: the claim says the manifest write is atomic.  With
previous content "OLD" and new manifest "NEWDATA", a failure after 3
written characters leaves "NEW" — neither the old nor the complete new
manifest — because `open(..., 'w')` truncated the file first. -/
theorem c6_truncated_manifest_after_midwrite_failure :
    save_resume_data_run (some "OLD") "NEWDATA" (some (some 3))
        = some "NEW" ∧
    some "NEW" ≠ some "OLD" ∧ some "NEW" ≠ some "NEWDATA" := by
  decide

/-- C6 amended: `save_resume_data` writes the manifest in place through a
truncating open: an error-free run leaves the complete new manifest; only a
failure of the `open` itself leaves the previous content; a failure after
`k` written characters leaves exactly the first `k` characters of the new
manifest.  The exception is caught and printed, never raised. -/
theorem c6_inplace_write_semantics (old : Option String) (content : String)
    (failPoint : Option (Option Nat)) :
    (failPoint = none →
      save_resume_data_run old content failPoint = some content) ∧
    (failPoint = some none →
      save_resume_data_run old content failPoint = old) ∧
    (∀ k, failPoint = some (some k) →
      save_resume_data_run old content failPoint = some (content.take k)) := by
  refine ⟨?_, ?_, ?_⟩
  · rintro rfl; rfl
  · rintro rfl; rfl
  · rintro k rfl; rfl

/-- C6 witness: the amended semantics applied at the concrete error-free
run. -/
theorem c6_inplace_write_semantics_witness :
    save_resume_data_run (some "OLD") "NEWDATA" none = some "NEWDATA" :=
  (c6_inplace_write_semantics (some "OLD") "NEWDATA" none).1 rfl

/-- C9: a missing manifest (`os.path.exists` false) and an unparsable one
(`json.load` raises, the `except` swallows it) both make `load_resume_data`
restore nothing and return `false`, for every disk state — the manager's
task list is left exactly as with no resume data, and no error escapes. -/
theorem c9_missing_or_unparsable_manifest_empty
    (fs : String → Option Nat) :
    load_resume_data none fs = ([], false) ∧
    load_resume_data (some none) fs = ([], false) :=
  ⟨rfl, rfl⟩

/-- Folding the summary loop over any task list starting from any
accumulator adds, to each bucket, the number of tasks in that status;
the "total" field is never touched by the loop. -/
lemma summary_foldl (l : List DownloadTask) (s : DownloadSummary) :
    l.foldl (fun a t => summaryBump a t.status) s =
      { total := s.total,
        completed :=
          s.completed + l.countP (fun t => t.status == Status.completed),
        failed := s.failed + l.countP (fun t => t.status == Status.failed),
        pending := s.pending + l.countP (fun t => t.status == Status.pending),
        downloading :=
          s.downloading
            + l.countP (fun t => t.status == Status.downloading) } := by
  induction l generalizing s with
  | nil => simp
  | cons t l ih =>
      rw [List.foldl_cons, ih]
      cases h : t.status <;>
        simp [summaryBump, List.countP_cons, h, DownloadSummary.mk.injEq] <;>
        omega

/-- Every task is in exactly one of the five statuses, so the five
per-status counts of a list sum to its length. -/
lemma countP_status_partition (l : List DownloadTask) :
    l.countP (fun t => t.status == Status.completed)
      + l.countP (fun t => t.status == Status.failed)
      + l.countP (fun t => t.status == Status.pending)
      + l.countP (fun t => t.status == Status.downloading)
      + l.countP (fun t => t.status == Status.paused) = l.length := by
  induction l with
  | nil => simp
  | cons t l ih =>
      cases h : t.status <;> simp [List.countP_cons, h] <;> omega

/-- C10: `get_download_summary` reports "total" equal to the number of
tasks and, for each of "pending", "downloading", "completed" and "failed",
the number of tasks in that status; a "paused" task is counted in "total"
but in no bucket, so the buckets sum to the length minus the number of
paused tasks. -/
theorem c10_summary_counts (tasks : List DownloadTask) :
    (get_download_summary tasks).total = tasks.length ∧
    (get_download_summary tasks).completed
        = tasks.countP (fun t => t.status == Status.completed) ∧
    (get_download_summary tasks).failed
        = tasks.countP (fun t => t.status == Status.failed) ∧
    (get_download_summary tasks).pending
        = tasks.countP (fun t => t.status == Status.pending) ∧
    (get_download_summary tasks).downloading
        = tasks.countP (fun t => t.status == Status.downloading) ∧
    (get_download_summary tasks).completed
        + (get_download_summary tasks).failed
        + (get_download_summary tasks).pending
        + (get_download_summary tasks).downloading
        + tasks.countP (fun t => t.status == Status.paused)
      = tasks.length := by
  have h := summary_foldl tasks
    { total := tasks.length, completed := 0, failed := 0, pending := 0,
      downloading := 0 }
  unfold get_download_summary
  rw [h]
  refine ⟨rfl, by simp, by simp, by simp, by simp, ?_⟩
  have hp := countP_status_partition tasks
  simp only []
  omega

/-- Replacing position `i` of a status list changes a `countP` by removing
the old element's contribution and adding the new one's. -/
lemma countP_set (p : Status → Bool) :
    ∀ (l : List Status) (i : Nat) (v : Status) (h : i < l.length),
      (l.set i v).countP p + (if p (l.get ⟨i, h⟩) then 1 else 0)
        = l.countP p + (if p v then 1 else 0) := by
  intro l
  induction l with
  | nil => intro i v h; exact absurd h (by simp)
  | cons a l ih =>
      intro i v h
      cases i with
      | zero => simp [List.countP_cons]; omega
      | succ j =>
          have hj : j < l.length := by simpa using h
          have := ih j v hj
          simp only [List.set, List.countP_cons, List.get]
          omega

/-- One scheduler step preserves the semaphore invariant: the number of
"downloading" tasks plus the free semaphore permits stays `C`. -/
lemma sched_step_invariant {C : Nat} {b c : SchedulerState}
    (hbc : SchedStep b c)
    (ih : countDownloading b.statuses + b.semAvail = C) :
    countDownloading c.statuses + c.semAvail = C := by
  cases hbc with
  | start i h helig hsem =>
      have hcs := countP_set (fun st => st == Status.downloading)
        b.statuses i Status.downloading h
      have hold : ((b.statuses.get ⟨i, h⟩) == Status.downloading)
          = false := by
        cases hx : b.statuses.get ⟨i, h⟩
        · rfl
        · rw [hx] at helig; exact absurd helig (by decide)
        · rfl
        · rfl
        · rfl
      rw [hold] at hcs
      simp only [beq_self_eq_true, if_true, Bool.false_eq_true, if_false]
        at hcs
      unfold countDownloading at ih ⊢
      dsimp only at ih ⊢
      omega
  | finish i h hrun out hout =>
      have hcs := countP_set (fun st => st == Status.downloading)
        b.statuses i out h
      have hnew : (out == Status.downloading) = false := by
        cases out <;> first | rfl | exact absurd rfl hout
      rw [hrun, hnew] at hcs
      simp only [beq_self_eq_true, if_true, Bool.false_eq_true, if_false]
        at hcs
      unfold countDownloading at ih ⊢
      dsimp only at ih ⊢
      omega

/-- Semaphore invariant: along every reachable scheduler state, the number
of "downloading" tasks plus the free semaphore permits equals the
capacity `C`. -/
lemma sched_invariant (C : Nat) (init : List Status)
    (hinit : countDownloading init = 0) (s : SchedulerState)
    (hs : SchedReachable C init s) :
    countDownloading s.statuses + s.semAvail = C := by
  induction hs with
  | refl => dsimp only; omega
  | tail hab hbc ih => exact sched_step_invariant hbc ih

/-- C3: everywhere along any execution of `download_all`, at most
`max_concurrent` tasks are in status "downloading": the semaphore of
capacity `C` must be acquired before a task is marked "downloading", so a
`(C+1)`-th concurrent transport invocation can never start. -/
theorem c3_concurrency_bound (C : Nat) (init : List Status)
    (hinit : countDownloading init = 0) (s : SchedulerState)
    (hs : SchedReachable C init s) :
    countDownloading s.statuses ≤ C := by
  have h := sched_invariant C init hinit s hs
  omega

/-- C3 witness: with capacity 1 and two pending tasks, the state reached by
starting the first task has one downloading task, within the bound. -/
theorem c3_concurrency_bound_witness :
    countDownloading [Status.downloading, Status.pending] ≤ 1 :=
  c3_concurrency_bound 1 [Status.pending, Status.pending] (by decide)
    ⟨[Status.downloading, Status.pending], 0⟩
    (Relation.ReflTransGen.single
      (SchedStep.start ⟨[Status.pending, Status.pending], 1⟩ 0 (by decide)
        (by decide) (by decide)))

/-- Pointwise-related snapshot lists have the same total expected size. -/
lemma forall2_totalSize {ts1 ts2 : List DownloadTask}
    (h : List.Forall₂
      (fun a b => a.file_size = b.file_size ∧ a.downloaded ≤ b.downloaded)
      ts1 ts2) :
    totalSize ts1 = totalSize ts2 := by
  induction h with
  | nil => rfl
  | cons hab htl ih =>
      simp only [totalSize, List.map_cons, List.sum_cons] at ih ⊢
      rw [hab.1, ih]

/-- Pointwise-related snapshot lists have pointwise-bounded transferred
totals. -/
lemma forall2_totalDownloaded {ts1 ts2 : List DownloadTask}
    (h : List.Forall₂
      (fun a b => a.file_size = b.file_size ∧ a.downloaded ≤ b.downloaded)
      ts1 ts2) :
    totalDownloaded ts1 ≤ totalDownloaded ts2 := by
  induction h with
  | nil => exact Nat.le_refl 0
  | cons hab htl ih =>
      simp only [totalDownloaded, List.map_cons, List.sum_cons] at ih ⊢
      exact Nat.add_le_add hab.2 ih

/-- C8 counterexample: in tracker state `c8m1` one task has all 10 of its
10 bytes but is still "downloading" (its completion callback runs before
the status changes), so the display shows 100 percent while not every task
is Completed; the next update, registering a second task with 1 of 10
bytes, drops the display to 55 percent — the fraction is not
monotone. -/
theorem c8_progress_decreases_and_100_while_downloading :
    overall_progress (trackerTasks c8m1) = 100 ∧
    (∃ t, t ∈ trackerTasks c8m1 ∧ t.status ≠ Status.completed) ∧
    overall_progress (trackerTasks (update_task_progress c8m1 c8B))
        < overall_progress (trackerTasks c8m1) := by
  have h1 : trackerTasks c8m1 = [c8A] := rfl
  have h2 : trackerTasks (update_task_progress c8m1 c8B) = [c8A, c8B] := rfl
  rw [h1, h2]
  refine ⟨?_, ⟨c8A, by simp, by decide⟩, ?_⟩
  · norm_num [overall_progress, totalSize, totalDownloaded, c8A]
  · norm_num [overall_progress, totalSize, totalDownloaded, c8A, c8B]

/-- C8 amended: across updates that keep the tracked task set and every
task's `file_size` fixed while no `downloaded` counter decreases, the
percentage is non-decreasing; and with a positive expected total it equals
100 exactly when the transferred total equals the expected total — which
does not require every task to be Completed. -/
theorem c8_progress_monotone_fixed_sizes (ts1 ts2 : List DownloadTask)
    (h : List.Forall₂
      (fun a b => a.file_size = b.file_size ∧ a.downloaded ≤ b.downloaded)
      ts1 ts2) :
    overall_progress ts1 ≤ overall_progress ts2 ∧
    (0 < totalSize ts1 →
      (overall_progress ts1 = 100 ↔
        totalDownloaded ts1 = totalSize ts1)) := by
  have hsz := forall2_totalSize h
  have hdl := forall2_totalDownloaded h
  constructor
  · unfold overall_progress
    rw [hsz]
    by_cases hpos : 0 < totalSize ts2
    · rw [if_pos hpos, if_pos hpos]
      have hc : (0 : ℚ) < (totalSize ts2 : ℚ) := by exact_mod_cast hpos
      have hd : (totalDownloaded ts1 : ℚ) ≤ (totalDownloaded ts2 : ℚ) := by
        exact_mod_cast hdl
      gcongr
    · rw [if_neg hpos, if_neg hpos]
  · intro hpos
    unfold overall_progress
    rw [if_pos hpos]
    have hc : (0 : ℚ) < (totalSize ts1 : ℚ) := by exact_mod_cast hpos
    constructor
    · intro heq
      have h100 : (totalDownloaded ts1 : ℚ) / (totalSize ts1 : ℚ) = 1 := by
        have : ((totalDownloaded ts1 : ℚ) / (totalSize ts1 : ℚ)) * 100
            = 1 * 100 := by rw [heq]; norm_num
        exact mul_right_cancel₀ (by norm_num) this
      have : (totalDownloaded ts1 : ℚ) = (totalSize ts1 : ℚ) :=
        (div_eq_one_iff_eq (ne_of_gt hc)).mp h100
      exact_mod_cast this
    · intro heq
      rw [heq]
      rw [div_self (ne_of_gt hc)]
      norm_num

/-- C8 witness: the amended monotonicity applied to the concrete update in
which the second task advances from 1 to 5 of its 10 bytes. -/
theorem c8_progress_monotone_fixed_sizes_witness :
    overall_progress [c8A, c8B] ≤
      overall_progress [c8A, { c8B with downloaded := 5 }] ∧
    (0 < totalSize [c8A, c8B] →
      (overall_progress [c8A, c8B] = 100 ↔
        totalDownloaded [c8A, c8B] = totalSize [c8A, c8B])) :=
  c8_progress_monotone_fixed_sizes [c8A, c8B]
    [c8A, { c8B with downloaded := 5 }]
    (List.Forall₂.cons ⟨rfl, by decide⟩
      (List.Forall₂.cons ⟨rfl, by decide⟩ List.Forall₂.nil))

/-- A round over tasks that all enter with spare retry budget leaves every
retry counter at most its budget, whatever the eligibility filter and the
attempt outcomes. -/
lemma runRound_retry_le_first (o e : DownloadTask → Bool)
    {l : List DownloadTask}
    (hl : ∀ t ∈ l, t.retry_count < t.max_retries) :
    ∀ t ∈ runRound o e l, t.retry_count ≤ t.max_retries := by
  intro t ht
  simp only [runRound, List.mem_map] at ht
  obtain ⟨t0, ht0, rfl⟩ := ht
  have h0 := hl t0 ht0
  by_cases he : e t0 = true
  · rw [if_pos he]
    unfold attemptOutcome
    by_cases hb : o t0 = true
    · rw [if_pos hb]
      exact Nat.le_of_lt h0
    · rw [if_neg hb]
      unfold handle_failure
      dsimp only
      split <;> dsimp only <;> omega
  · rw [if_neg he]
    exact Nat.le_of_lt h0

/-- A retry round (which only attempts tasks with spare budget) preserves
`retry_count ≤ max_retries`. -/
lemma runRound_retry_le_retry (o : DownloadTask → Bool)
    {l : List DownloadTask}
    (hl : ∀ t ∈ l, t.retry_count ≤ t.max_retries) :
    ∀ t ∈ runRound o eligibleRetry l, t.retry_count ≤ t.max_retries := by
  intro t ht
  simp only [runRound, List.mem_map] at ht
  obtain ⟨t0, ht0, rfl⟩ := ht
  have h0 := hl t0 ht0
  by_cases he : eligibleRetry t0 = true
  · have hlt : t0.retry_count < t0.max_retries := by
      have h2 := he
      unfold eligibleRetry at h2
      simp only [Bool.and_eq_true, decide_eq_true_eq] at h2
      exact h2.2
    rw [if_pos he]
    unfold attemptOutcome
    by_cases hb : o t0 = true
    · rw [if_pos hb]
      exact Nat.le_of_lt hlt
    · rw [if_neg hb]
      unfold handle_failure
      dsimp only
      split <;> dsimp only <;> omega
  · rw [if_neg he]
    exact h0

/-- One failed attempt on a task with spare budget behaves as
`afterFails · 1`. -/
lemma handle_failure_eq_afterFails_one (t : DownloadTask)
    (hlt : t.retry_count < t.max_retries) :
    handle_failure t = afterFails t 1 := by
  unfold handle_failure afterFails
  dsimp only
  by_cases hc : t.retry_count + 1 < t.max_retries
  · rw [if_pos hc, if_pos hc]
  · rw [if_neg hc, if_neg hc]
    have heq : t.retry_count + 1 = t.max_retries := by omega
    simp [heq]

/-- While the budget is not exhausted, the failed task is requeued as
"pending", hence eligible for the next retry round. -/
lemma eligibleRetry_afterFails_pos (t : DownloadTask) (k : Nat)
    (hc : t.retry_count + k < t.max_retries) :
    eligibleRetry (afterFails t k) = true := by
  unfold eligibleRetry afterFails
  rw [if_pos hc]
  simp [hc]

/-- Once the budget is exhausted, the task sits in "failed" and no retry
round touches it. -/
lemma eligibleRetry_afterFails_neg (t : DownloadTask) (k : Nat)
    (hc : ¬ (t.retry_count + k < t.max_retries)) :
    eligibleRetry (afterFails t k) = false := by
  unfold eligibleRetry afterFails
  rw [if_neg hc]
  rfl

/-- One retry round advances an always-failing task from `afterFails · k`
to `afterFails · (k+1)`: another failure while budget remains, and stasis
in terminal "failed" once the budget is gone. -/
lemma retryRound_afterFails (o : DownloadTask → Bool)
    (ho : ∀ t, o t = false) (t : DownloadTask) (k : Nat) :
    (if eligibleRetry (afterFails t k) = true
      then attemptOutcome (o (afterFails t k)) (afterFails t k)
      else afterFails t k)
      = afterFails t (k + 1) := by
  by_cases hc : t.retry_count + k < t.max_retries
  · rw [if_pos (eligibleRetry_afterFails_pos t k hc)]
    rw [ho (afterFails t k)]
    simp only [attemptOutcome, Bool.false_eq_true, if_false]
    have hs : afterFails t k
        = { t with status := Status.pending,
                   retry_count := t.retry_count + k } := by
      unfold afterFails
      rw [if_pos hc]
    rw [hs]
    unfold handle_failure afterFails
    dsimp only
    by_cases hc2 : t.retry_count + k + 1 < t.max_retries
    · rw [if_pos hc2,
        if_pos (show t.retry_count + (k + 1) < t.max_retries from hc2)]
      rfl
    · rw [if_neg hc2,
        if_neg (show ¬ (t.retry_count + (k + 1) < t.max_retries) from hc2)]
      have heq : t.retry_count + k + 1 = t.max_retries := by omega
      simp [heq]
  · rw [if_neg (by simp [eligibleRetry_afterFails_neg t k hc])]
    unfold afterFails
    rw [if_neg hc,
      if_neg (show ¬ (t.retry_count + (k + 1) < t.max_retries) by omega)]

/-- Position-wise characterization of `downloadState` under an oracle that
fails every attempt: a task that enters the first round eligible and with
spare budget sits, after `k+1` rounds, at `afterFails · (k+1)`. -/
lemma downloadState_get_alwaysFail (o : DownloadTask → Bool)
    (ho : ∀ t, o t = false) (tasks : List DownloadTask) (i : Nat)
    (h : i < tasks.length)
    (helig : eligibleFirst (tasks.get ⟨i, h⟩) = true)
    (hlt : (tasks.get ⟨i, h⟩).retry_count
        < (tasks.get ⟨i, h⟩).max_retries) :
    ∀ k, (downloadState o tasks (k + 1)).get? i
      = some (afterFails (tasks.get ⟨i, h⟩) (k + 1)) := by
  intro k
  induction k with
  | zero =>
      show (runRound o eligibleFirst tasks).get? i = _
      rw [runRound, List.get?_map, List.get?_eq_get h]
      simp only [Option.map_some']
      rw [if_pos helig, ho (tasks.get ⟨i, h⟩)]
      simp only [attemptOutcome, Bool.false_eq_true, if_false]
      rw [handle_failure_eq_afterFails_one _ hlt]
  | succ j ih =>
      show (runRound o eligibleRetry (downloadState o tasks (j + 1))).get? i
        = _
      rw [runRound, List.get?_map, ih]
      simp only [Option.map_some']
      exact congrArg some
        (retryRound_afterFails o ho (tasks.get ⟨i, h⟩) (j + 1))

/-- C4: under any attempt oracle, when every submitted task enters with
`retry_count < max_retries` (as `add_download` creates them), every round
state of `download_all` keeps `retry_count ≤ max_retries`; and a task whose
attempts all fail ends, from the round that exhausts its budget onwards, in
status "failed" with `retry_count = max_retries` — an absorbing state the
retry filter never selects again — not in "pending". -/
theorem c4_retry_budget (o : DownloadTask → Bool)
    (tasks : List DownloadTask)
    (hinit : ∀ t ∈ tasks, t.retry_count < t.max_retries) :
    (∀ k, ∀ t ∈ downloadState o tasks k,
      t.retry_count ≤ t.max_retries) ∧
    (∀ i, ∀ h : i < tasks.length, (∀ t, o t = false) →
      eligibleFirst (tasks.get ⟨i, h⟩) = true →
      ∀ k, (tasks.get ⟨i, h⟩).max_retries
          - (tasks.get ⟨i, h⟩).retry_count ≤ k →
        ((downloadState o tasks k).get? i).map
            (fun t => (t.status, t.retry_count))
          = some (Status.failed, (tasks.get ⟨i, h⟩).max_retries)) := by
  constructor
  · intro k
    induction k with
    | zero => intro t ht; exact Nat.le_of_lt (hinit t ht)
    | succ j ihj =>
        cases j with
        | zero => exact runRound_retry_le_first o eligibleFirst hinit
        | succ j2 => exact runRound_retry_le_retry o ihj
  · intro i h ho helig k hk
    have hlt := hinit (tasks.get ⟨i, h⟩) (tasks.get_mem i h)
    obtain ⟨j, rfl⟩ : ∃ j, k = j + 1 := ⟨k - 1, by omega⟩
    rw [downloadState_get_alwaysFail o ho tasks i h helig hlt j]
    have hge : ¬ ((tasks.get ⟨i, h⟩).retry_count + (j + 1)
        < (tasks.get ⟨i, h⟩).max_retries) := by omega
    rw [Option.map_some']
    unfold afterFails
    rw [if_neg hge]

/-- C4 witness: a fresh task with retry budget 2 under an always-failing
oracle sits, after both rounds, in "failed" with `retry_count = 2`. -/
theorem c4_retry_budget_witness :
    ((downloadState c4oracle [c4task] 2).get? 0).map
        (fun t => (t.status, t.retry_count)) = some (Status.failed, 2) :=
  (c4_retry_budget c4oracle [c4task] (by decide)).2 0 (by decide)
    (fun _ => rfl) (by decide) 2 (by decide)

end DownloadManager
